import Mathlib

/-!
Verification of the research-paper repository (`resarch.py`): a shallow
embedding of its data model and operations, with theorems settling the
specification's claims about hashing, deduplication, search and the
store invariants.

Machine words are modelled as `Nat` reduced modulo `2 ^ 32` where the
algorithm requires 32-bit wraparound.
-/

set_option maxHeartbeats 1000000

namespace SHA256

/-- `2 ^ 32`, the modulus for 32-bit words. -/
def pow32 : Nat := 4294967296

/-- Right rotation of a 32-bit word. -/
def rotr (n x : Nat) : Nat := ((x >>> n) ||| (x <<< (32 - n))) % pow32

/-- Logical right shift. -/
def shr (n x : Nat) : Nat := x >>> n

/-- Three-way xor. -/
def xor3 (a b c : Nat) : Nat := (a ^^^ b) ^^^ c

/-- The SHA-256 choice function. -/
def ch (x y z : Nat) : Nat := (x &&& y) ^^^ ((x ^^^ 4294967295) &&& z)

/-- The SHA-256 majority function. -/
def maj (x y z : Nat) : Nat := xor3 (x &&& y) (x &&& z) (y &&& z)

/-- Big sigma-0. -/
def bigS0 (x : Nat) : Nat := xor3 (rotr 2 x) (rotr 13 x) (rotr 22 x)

/-- Big sigma-1. -/
def bigS1 (x : Nat) : Nat := xor3 (rotr 6 x) (rotr 11 x) (rotr 25 x)

/-- Small sigma-0. -/
def smallS0 (x : Nat) : Nat := xor3 (rotr 7 x) (rotr 18 x) (shr 3 x)

/-- Small sigma-1. -/
def smallS1 (x : Nat) : Nat := xor3 (rotr 17 x) (rotr 19 x) (shr 10 x)

/-- The 64 SHA-256 round constants. -/
def K : List Nat :=
  [1116352408, 1899447441, 3049323471, 3921009573,
   961987163, 1508970993, 2453635748, 2870763221,
   3624381080, 310598401, 607225278, 1426881987,
   1925078388, 2162078206, 2614888103, 3248222580,
   3835390401, 4022224774, 264347078, 604807628,
   770255983, 1249150122, 1555081692, 1996064986,
   2554220882, 2821834349, 2952996808, 3210313671,
   3336571891, 3584528711, 113926993, 338241895,
   666307205, 773529912, 1294757372, 1396182291,
   1695183700, 1986661051, 2177026350, 2456956037,
   2730485921, 2820302411, 3259730800, 3345764771,
   3516065817, 3600352804, 4094571909, 275423344,
   430227734, 506948616, 659060556, 883997877,
   958139571, 1322822218, 1537002063, 1747873779,
   1955562222, 2024104815, 2227730452, 2361852424,
   2428436474, 2756734187, 3204031479, 3329325298]

/-- The initial hash state. -/
def H0 : List Nat :=
  [1779033703, 3144134277, 1013904242, 2773480762,
   1359893119, 2600822924, 528734635, 1541459225]

/-- Big-endian bytes (8 of them) of a length-in-bits counter. -/
def beBytes8 (n : Nat) : List Nat :=
  [(n >>> 56) % 256, (n >>> 48) % 256, (n >>> 40) % 256, (n >>> 32) % 256,
   (n >>> 24) % 256, (n >>> 16) % 256, (n >>> 8) % 256, n % 256]

/-- Merkle–Damgård padding: append `0x80`, zero bytes up to 56 mod 64,
then the 64-bit big-endian bit length. -/
def padMessage (msg : List Nat) : List Nat :=
  msg ++ [128] ++ List.replicate ((119 - msg.length % 64) % 64) 0 ++ beBytes8 (msg.length * 8)

/-- Split a byte list into 64-byte blocks. -/
def toBlocks (bs : List Nat) : List (List Nat) :=
  if bs.isEmpty then [] else bs.take 64 :: toBlocks (bs.drop 64)
termination_by bs.length
decreasing_by
  simp only [List.isEmpty_iff] at *
  cases bs with
  | nil => simp_all
  | cons a t => simp [List.length_drop]; omega

/-- Combine groups of four bytes into big-endian 32-bit words. -/
def bytesToWords : List Nat → List Nat
  | b0 :: b1 :: b2 :: b3 :: rest => (((b0 * 256 + b1) * 256 + b2) * 256 + b3) :: bytesToWords rest
  | _ => []

/-- One message-schedule extension step: append word `n` from words
`n-2`, `n-7`, `n-15`, `n-16`. -/
def extendStep (w : List Nat) : List Nat :=
  let n := w.length
  w ++ [(smallS1 (w.getD (n - 2) 0) + w.getD (n - 7) 0 +
         smallS0 (w.getD (n - 15) 0) + w.getD (n - 16) 0) % pow32]

/-- The 64-entry message schedule of one block. -/
def schedule (block : List Nat) : List Nat :=
  (List.range 48).foldl (fun w _ => extendStep w) (bytesToWords block)

/-- One compression round: state is the eight working variables. -/
def compressStep (st : List Nat) (kw : Nat × Nat) : List Nat :=
  match st with
  | [a, b, c, d, e, f, g, h] =>
    let t1 := (h + bigS1 e + ch e f g + kw.1 + kw.2) % pow32
    let t2 := (bigS0 a + maj a b c) % pow32
    [(t1 + t2) % pow32, a, b, c, (d + t1) % pow32, e, f, g]
  | _ => st

/-- Process one 64-byte block into the running hash state. -/
def processBlock (h : List Nat) (block : List Nat) : List Nat :=
  let st := (K.zip (schedule block)).foldl compressStep h
  (h.zip st).map (fun p => (p.1 + p.2) % pow32)

/-- The eight 32-bit words of the SHA-256 digest of a byte list. -/
def sha256words (msg : List Nat) : List Nat :=
  (toBlocks (padMessage msg)).foldl processBlock H0

/-- Lowercase hexadecimal digit. -/
def hexChar (n : Nat) : Char :=
  if n < 10 then Char.ofNat (48 + n) else Char.ofNat (87 + n)

/-- Eight lowercase hex characters of a 32-bit word, most significant first. -/
def wordHex (w : Nat) : List Char :=
  [hexChar ((w >>> 28) % 16), hexChar ((w >>> 24) % 16),
   hexChar ((w >>> 20) % 16), hexChar ((w >>> 16) % 16),
   hexChar ((w >>> 12) % 16), hexChar ((w >>> 8) % 16),
   hexChar ((w >>> 4) % 16), hexChar (w % 16)]

end SHA256

/-- The lowercase hexadecimal SHA-256 digest of a byte list, computed in
one pass over the whole content. -/
def sha256hex (msg : List Nat) : String :=
  String.mk ((SHA256.sha256words msg).foldr (fun w acc => SHA256.wordHex w ++ acc) [])

/-- A running digest accumulator, modelling `hashlib.sha256()`.  Per the
library's contract, feeding inputs `a` then `b` is equivalent to feeding
`a ++ b`, so the context is the accumulated byte sequence. -/
structure Sha256Ctx where
  buffered : List Nat
deriving Repr, DecidableEq

/-- `hashlib`'s `update`: absorb more bytes into the accumulator. -/
def Sha256Ctx.update (c : Sha256Ctx) (bs : List Nat) : Sha256Ctx :=
  ⟨c.buffered ++ bs⟩

/-- `hashlib`'s `hexdigest`: the lowercase-hex digest of everything absorbed. -/
def Sha256Ctx.hexdigest (c : Sha256Ctx) : String :=
  sha256hex c.buffered

/-- A fresh `hashlib.sha256()` accumulator. -/
def sha256Start : Sha256Ctx := ⟨[]⟩

/-- The successive reads `f.read(4096)` of a file with the given content:
each read returns up to 4096 bytes; the loop of `_calculate_file_hash`
stops at the first empty read. -/
def readChunks (bs : List Nat) : List (List Nat) :=
  if bs.isEmpty then [] else bs.take 4096 :: readChunks (bs.drop 4096)
termination_by bs.length
decreasing_by
  simp only [List.isEmpty_iff] at *
  cases bs with
  | nil => simp_all
  | cons a t => simp [List.length_drop]; omega

/-- `_calculate_file_hash`: consume the file content in 4096-byte chunks,
feed each into a running SHA-256 accumulator, return the final lowercase
hex digest. -/
def calculate_file_hash (content : List Nat) : String :=
  ((readChunks content).foldl Sha256Ctx.update sha256Start).hexdigest

/-! ## SQL string primitives (modelling SQLite behaviour used by the code) -/

/-- ASCII lower-casing, as SQLite's default `LIKE` and the FTS tokenizer
fold case only for ASCII letters. -/
def asciiLower (c : Char) : Char :=
  if 'A' ≤ c ∧ c ≤ 'Z' then Char.ofNat (c.toNat + 32) else c

/-- SQLite's `LIKE` operator on character lists: `%` matches any
sequence, `_` any single character, other characters match up to ASCII
case folding.  No ESCAPE clause is used by the code. -/
def likeMatch : List Char → List Char → Bool
  | [], s => s.isEmpty
  | p :: ps, s =>
    if p = '%' then (s.tails).any (fun t => likeMatch ps t)
    else
      match s with
      | [] => false
      | d :: ds => (if p = '_' then true else asciiLower p == asciiLower d) && likeMatch ps ds

/-- `LIKE` applied to a nullable SQL text value: `NULL LIKE x` is not true. -/
def likeOptStr (pat : List Char) : Option String → Bool
  | none => false
  | some s => likeMatch pat s.toList

/-- ASCII alphanumeric, the token characters of the FTS model. -/
def isAlnumAscii (c : Char) : Bool :=
  ('a' ≤ c && c ≤ 'z') || ('A' ≤ c && c ≤ 'Z') || ('0' ≤ c && c ≤ '9')

/-- Split a character list into maximal alphanumeric words. -/
def wordsAux : List Char → List Char → List (List Char)
  | [], acc => if acc.isEmpty then [] else [acc.reverse]
  | c :: cs, acc =>
    if isAlnumAscii c then wordsAux cs (c :: acc)
    else if acc.isEmpty then wordsAux cs [] else acc.reverse :: wordsAux cs []

/-- The case-folded tokens of a text. -/
def tokensOf (s : String) : List (List Char) :=
  wordsAux (s.toList.map asciiLower) []

/-- The tokens of a nullable text (`NULL` indexes nothing). -/
def tokensOfOpt : Option String → List (List Char)
  | none => []
  | some s => tokensOf s

/-- Year extraction helper: the tail of an ISO datetime after the date part. -/
def restOk : List Char → Bool
  | [] => true
  | c :: _ => c = ' ' || c = 'T'

/-- Numeric value of a digit character. -/
def digitVal (c : Char) : Nat := c.toNat - 48

/-- Modelling SQLite's `strftime('%Y', d)` on text: the four-digit year
of an ISO-8601 `YYYY-MM-DD[...]` string, `NULL` (here `none`) when the
value does not parse as a date. -/
def parseYear (cs : List Char) : Option String :=
  match cs with
  | y1 :: y2 :: y3 :: y4 :: '-' :: m1 :: m2 :: '-' :: d1 :: d2 :: rest =>
    if ([y1, y2, y3, y4, m1, m2, d1, d2]).all (fun c => '0' ≤ c && c ≤ '9')
        && restOk rest
        && (1 ≤ digitVal m1 * 10 + digitVal m2 && digitVal m1 * 10 + digitVal m2 ≤ 12)
        && (1 ≤ digitVal d1 * 10 + digitVal d2 && digitVal d1 * 10 + digitVal d2 ≤ 31)
    then some (String.mk [y1, y2, y3, y4]) else none
  | _ => none

/-- `strftime('%Y', publication_date)` on the nullable column. -/
def strftimeY : Option String → Option String
  | none => none
  | some s => parseYear s.toList

/-! ## Data model -/

/-- A value of a SQL result column. -/
inductive SqlValue
  | null
  | int (n : Nat)
  | text (s : String)
deriving Repr, DecidableEq

/-- A nullable text column as a result value. -/
def optText : Option String → SqlValue
  | none => .null
  | some s => .text s

/-- A row of the `papers` table. -/
structure PaperRow where
  id : Nat
  title : String
  authors : String
  abstract : Option String
  publication_date : Option String
  category : Option String
  file_path : Option String
  file_hash : Option String
  upload_date : String
  keywords : Option String
deriving Repr, DecidableEq

/-- A row of the `papers_fts` virtual table. -/
structure FtsRow where
  rowid : Nat
  title : String
  authors : String
  abstract : Option String
  keywords : Option String
deriving Repr, DecidableEq

/-- The database state: the primary table, whether FTS5 was available at
initialization, the derived index, and the next `AUTOINCREMENT` rowid. -/
structure RepoState where
  papers : List PaperRow
  ftsAvailable : Bool
  fts : List FtsRow
  nextId : Nat
deriving Repr, DecidableEq

/-- The filesystem visible to the repository: path/content pairs. -/
structure FileSystem where
  files : List (String × List Nat)
deriving Repr, DecidableEq

/-- First-match association lookup of a file's content by path. -/
def lookupFile : List (String × List Nat) → String → Option (List Nat)
  | [], _ => none
  | (q, b) :: rest, p => if q = p then some b else lookupFile rest p

/-- `os.path.exists`. -/
def fsExists (fs : FileSystem) (p : String) : Bool :=
  (lookupFile fs.files p).isSome

/-- Python truthiness of an optional-string argument: `None` and `""` are falsy. -/
def pyTruthy : Option String → Bool
  | none => false
  | some s => !(s == "")

/-- `_initialize_database` run against empty storage: empty tables and,
when the engine lacks FTS5, the caught `OperationalError` leaves the
degraded store (no `papers_fts` table, no triggers) with setup succeeding. -/
def initState (ftsAvailable : Bool) : RepoState :=
  { papers := [], ftsAvailable := ftsAvailable, fts := [], nextId := 1 }

/-- Errors surfaced by the operations. -/
inductive RepoError
  | fileNotFound (p : String)
  | integrityError
  | operationalError (msg : String)
deriving Repr, DecidableEq

/-- The outcome of `add_paper`: a fresh identifier, the duplicate marker
(Python `None`), or a raised error. -/
inductive AddOutcome
  | inserted (id : Nat)
  | duplicate
  | error (e : RepoError)
deriving Repr, DecidableEq

/-- Does inserting a row with the given `file_path` and `file_hash`
violate a `UNIQUE` constraint?  SQL `NULL`s never conflict. -/
def violatesUnique (s : RepoState) (path hash : Option String) : Bool :=
  s.papers.any (fun r =>
    (path.isSome && r.file_path == path) || (hash.isSome && r.file_hash == hash))

/-- The `INSERT INTO papers ...` statement: atomic — on a constraint
violation nothing is written; on success the row is appended and the
`papers_ai` trigger (present only when FTS5 was available) projects the
text fields into `papers_fts`. -/
def insertPaper (s : RepoState) (title authors : String)
    (abstract publication_date category : Option String)
    (path hash : Option String) (now : String) (keywords : Option String) :
    Except RepoError (RepoState × Nat) :=
  if violatesUnique s path hash then .error .integrityError
  else
    let pid := s.nextId
    let row : PaperRow :=
      { id := pid, title := title, authors := authors, abstract := abstract,
        publication_date := publication_date, category := category,
        file_path := path, file_hash := hash, upload_date := now, keywords := keywords }
    let fts2 :=
      if s.ftsAvailable then
        s.fts ++ [{ rowid := pid, title := title, authors := authors,
                    abstract := abstract, keywords := keywords }]
      else s.fts
    .ok ({ s with papers := s.papers ++ [row], fts := fts2, nextId := pid + 1 }, pid)

/-- Modelled from the spec: the external fixture generator
(`create_sample_pdf`, built on the out-of-scope `fpdf` library) produces
a fixed placeholder document; only its bytes matter to hashing. -/
def samplePdfBytes : List Nat := [37, 80, 68, 70, 45, 49, 46, 51]

/-- `create_sample_pdf`: write the placeholder document at the path. -/
def createSamplePdf (fs : FileSystem) (filename : String) : FileSystem :=
  ⟨(filename, samplePdfBytes) :: fs.files⟩

/-- The part of `add_paper` after the file is known to exist: hash the
content, return the duplicate marker if a stored row has the same hash,
otherwise insert. -/
def addExisting (s : RepoState) (fs : FileSystem) (p : String) (title authors : String)
    (abstract publication_date category keywords : Option String) (now : String) :
    RepoState × FileSystem × AddOutcome :=
  let content := (lookupFile fs.files p).getD []
  let h := calculate_file_hash content
  if s.papers.any (fun r => r.file_hash == some h) then
    (s, fs, .duplicate)
  else
    match insertPaper s title authors abstract publication_date category
        (some p) (some h) now keywords with
    | .error e => (s, fs, .error e)
    | .ok (s2, pid) => (s2, fs, .inserted pid)

/-- `add_paper`.  `now` stands for `datetime.now().strftime(...)`.  The
returned triple is the post-state of the database and filesystem together
with the outcome; a raised exception leaves the mutations performed up to
that point in place, exactly as in the source. -/
def add_paper (s : RepoState) (fs : FileSystem) (title authors : String)
    (file_path : Option String) (abstract publication_date category keywords : Option String)
    (create_sample_if_missing : Bool) (now : String) :
    RepoState × FileSystem × AddOutcome :=
  if pyTruthy file_path then
    let p0 := file_path.getD ""
    if fsExists fs p0 then
      addExisting s fs p0 title authors abstract publication_date category keywords now
    else if create_sample_if_missing then
      addExisting s (createSamplePdf fs p0) p0 title authors abstract publication_date
        category keywords now
    else (s, fs, .error (.fileNotFound p0))
  else
    match insertPaper s title authors abstract publication_date category none none now keywords with
    | .error e => (s, fs, .error e)
    | .ok (s2, pid) => (s2, fs, .inserted pid)

/-- `clear_test_data`: delete all papers whose title `LIKE`-matches
`'Deep Learning for%'` (the `papers_ad` trigger, present only with FTS5,
removes the matching index entries), then delete `sample_paper.pdf` if it
exists. -/
def clear_test_data (s : RepoState) (fs : FileSystem) : RepoState × FileSystem :=
  let gone := fun (r : PaperRow) => likeMatch ("Deep Learning for%".toList) r.title.toList
  let papers2 := s.papers.filter (fun r => !(gone r))
  let fts2 :=
    if s.ftsAvailable then
      s.fts.filter (fun f => !(s.papers.any (fun r => gone r && r.id == f.rowid)))
    else s.fts
  ({ s with papers := papers2, fts := fts2 },
   ⟨fs.files.filter (fun kv => !(kv.1 == "sample_paper.pdf"))⟩)

/-- Modelling the FTS5 engine's `MATCH` for plain term queries (the only
form the repository issues): every case-folded token of the query must
occur among the tokens of the indexed columns. -/
def ftsMatch (q : String) (f : FtsRow) : Bool :=
  (tokensOf q).all (fun t =>
    (tokensOf f.title ++ tokensOf f.authors ++ tokensOfOpt f.abstract ++
     tokensOfOpt f.keywords).contains t)

/-- The projection `SELECT p.id, p.title, ...` materialized as the Python
`dict(zip(columns, row))`: an insertion-ordered key/value mapping. -/
def rowToDict (r : PaperRow) : List (String × SqlValue) :=
  [("id", .int r.id), ("title", .text r.title), ("authors", .text r.authors),
   ("abstract", optText r.abstract), ("publication_date", optText r.publication_date),
   ("category", optText r.category), ("file_path", optText r.file_path),
   ("upload_date", .text r.upload_date), ("keywords", optText r.keywords)]

/-- The `AND p.category = ?` filter (absent when the argument is falsy). -/
def categoryPred (category : Option String) (p : PaperRow) : Bool :=
  match category with
  | some c => if c = "" then true else p.category == some c
  | none => true

/-- The `AND p.authors LIKE '%' || ? || '%'` filter (absent when falsy). -/
def authorPred (author : Option String) (p : PaperRow) : Bool :=
  match author with
  | some a => if a = "" then true else likeMatch ('%' :: (a.toList ++ ['%'])) p.authors.toList
  | none => true

/-- The `AND strftime('%Y', p.publication_date) = ?` filter (absent when falsy). -/
def yearPred (year : Option String) (p : PaperRow) : Bool :=
  match year with
  | some y => if y = "" then true else strftimeY p.publication_date == some y
  | none => true

/-- `search_papers`.  The `try` in the source wraps only the assignment
of the SQL string — which cannot raise — so with a truthy query the FTS
join is always the statement executed; on a store whose engine lacked
FTS5 that execution raises `OperationalError` (`papers_fts` does not
exist).  The substring-fallback branch of the source is unreachable. -/
def search_papers (s : RepoState) (query category author year : Option String) :
    Except RepoError (List (List (String × SqlValue))) :=
  if pyTruthy query then
    if s.ftsAvailable then
      let q := query.getD ""
      .ok ((s.papers.filter (fun p =>
        (s.fts.any (fun f => f.rowid == p.id && ftsMatch q f))
        && categoryPred category p && authorPred author p && yearPred year p)).map rowToDict)
    else .error (.operationalError "no such table: papers_fts")
  else
    .ok ((s.papers.filter (fun p =>
      categoryPred category p && authorPred author p && yearPred year p)).map rowToDict)

/-- The substring strategy of the source's unreachable fallback branch
(`title LIKE ? OR abstract LIKE ? OR authors LIKE ? OR keywords LIKE ?`
with the query wrapped in `%`). -/
def fallbackMatch (q : String) (p : PaperRow) : Bool :=
  let pat := '%' :: (q.toList ++ ['%'])
  likeMatch pat p.title.toList || likeOptStr pat p.abstract ||
  likeMatch pat p.authors.toList || likeOptStr pat p.keywords

/-- The store states reachable through the public operations (searches
and category listing do not write). -/
inductive Reachable : RepoState → Prop
  | initial (fts : Bool) : Reachable (initState fts)
  | add (s : RepoState) (fs : FileSystem) (t a : String)
      (fp ab pd c k : Option String) (fl : Bool) (now : String) :
      Reachable s → Reachable (add_paper s fs t a fp ab pd c k fl now).1
  | clear (s : RepoState) (fs : FileSystem) :
      Reachable s → Reachable (clear_test_data s fs).1

/-! ## Concrete states used to evaluate the operations -/

/-- A stored paper whose text mentions "deep". -/
def pDeg : PaperRow :=
  { id := 1, title := "deep learning survey", authors := "Ann Lee",
    abstract := some "a study of deep nets", publication_date := some "2023-05-15",
    category := some "ML", file_path := none, file_hash := none,
    upload_date := "2024-01-01 00:00:00", keywords := some "deep learning" }

/-- A degraded store (engine without FTS5) holding `pDeg`. -/
def sDeg : RepoState :=
  { papers := [pDeg], ftsAvailable := false, fts := [], nextId := 2 }

/-- A stored paper authored by "John Smith" in category "ML". -/
def pJohn : PaperRow :=
  { id := 1, title := "Graph Methods", authors := "John Smith",
    abstract := none, publication_date := some "2023-05-15",
    category := some "ML", file_path := none, file_hash := none,
    upload_date := "2024-01-01 00:00:00", keywords := none }

/-- An FTS-backed store holding `pJohn` with its index entry. -/
def sJohn : RepoState :=
  { papers := [pJohn], ftsAvailable := true,
    fts := [{ rowid := 1, title := "Graph Methods", authors := "John Smith",
              abstract := none, keywords := none }],
    nextId := 2 }

/-- A paper whose title matches the clearing prefix only up to ASCII case. -/
def pUpper : PaperRow :=
  { id := 1, title := "DEEP LEARNING FOR X", authors := "A",
    abstract := none, publication_date := none, category := none,
    file_path := none, file_hash := none, upload_date := "u", keywords := none }

/-- A store holding `pUpper`. -/
def sUpper : RepoState :=
  { papers := [pUpper], ftsAvailable := true,
    fts := [{ rowid := 1, title := "DEEP LEARNING FOR X", authors := "A",
              abstract := none, keywords := none }],
    nextId := 2 }

/-- A store holding one row with a file path but no hash, used to drive
`add_paper` into the `file_path` uniqueness violation. -/
def sPath : RepoState :=
  { papers := [{ id := 1, title := "Old", authors := "O", abstract := none,
                 publication_date := none, category := none,
                 file_path := some "a.pdf", file_hash := none,
                 upload_date := "u", keywords := none }],
    ftsAvailable := true, fts := [], nextId := 2 }

/-- The row inserted by an add with no file path. -/
def pNone : PaperRow :=
  { id := 1, title := "T", authors := "A", abstract := none, publication_date := none,
    category := none, file_path := none, file_hash := none, upload_date := "n",
    keywords := none }

/-- Filesystem with two distinct paths holding identical bytes "ABC". -/
def fsTwin : FileSystem := ⟨[("a.pdf", [65, 66, 67]), ("b.pdf", [65, 66, 67])]⟩

/-- Filesystem holding changed bytes "DEF" at the already-stored path. -/
def fsChanged : FileSystem := ⟨[("a.pdf", [68, 69, 70])]⟩

/-- A filesystem carrying the demo fixture and an unrelated file. -/
def fsSample : FileSystem := ⟨[("sample_paper.pdf", [1]), ("other.txt", [2])]⟩

/-- Case-sensitive substring containment of character lists. -/
def containsSubstr (needle hay : List Char) : Bool :=
  hay.tails.any (fun t => needle.isPrefixOf t)

/-- Equality of operation results is decidable. -/
instance {e a : Type} [DecidableEq e] [DecidableEq a] : DecidableEq (Except e a) := fun x y =>
  match x, y with
  | .ok u, .ok v => if h : u = v then isTrue (by rw [h]) else isFalse (by simp [h])
  | .error u, .error v => if h : u = v then isTrue (by rw [h]) else isFalse (by simp [h])
  | .ok _, .error _ => isFalse (by simp)
  | .error _, .ok _ => isFalse (by simp)

/-! ## Hashing unit: helper lemmas -/

/-- The 4096-byte reads reassemble to exactly the file content. -/
theorem readChunks_join (bs : List Nat) : (readChunks bs).flatten = bs := by
  induction bs using readChunks.induct with
  | case1 bs h => rw [readChunks]; simp_all
  | case2 bs h ih => rw [readChunks]; simp_all

/-- Folding `update` over chunks accumulates their concatenation. -/
theorem foldl_update_eq (chunks : List (List Nat)) (c : Sha256Ctx) :
    chunks.foldl Sha256Ctx.update c = ⟨c.buffered ++ chunks.flatten⟩ := by
  induction chunks generalizing c with
  | nil => simp [Sha256Ctx.update]
  | cons h t ih =>
    simp only [List.foldl_cons, List.flatten_cons, Sha256Ctx.update]
    rw [ih]
    simp [List.append_assoc]

/-- `hexChar` of a nibble is a lowercase hex character. -/
theorem hexChar_range (n : Nat) (h : n < 16) :
    ('0' ≤ SHA256.hexChar n ∧ SHA256.hexChar n ≤ '9') ∨
    ('a' ≤ SHA256.hexChar n ∧ SHA256.hexChar n ≤ 'f') := by
  interval_cases n <;> decide

/-- Every character of `wordHex` is a lowercase hex character. -/
theorem wordHex_range (w : Nat) (c : Char) (hc : c ∈ SHA256.wordHex w) :
    ('0' ≤ c ∧ c ≤ '9') ∨ ('a' ≤ c ∧ c ≤ 'f') := by
  simp only [SHA256.wordHex, List.mem_cons, List.not_mem_nil, or_false] at hc
  rcases hc with h | h | h | h | h | h | h | h <;>
    (subst h; exact hexChar_range _ (Nat.mod_lt _ (by omega)))

/-- Membership in the hex rendering comes from some word's rendering. -/
theorem mem_foldr_wordHex (ws : List Nat) (c : Char)
    (hc : c ∈ ws.foldr (fun w acc => SHA256.wordHex w ++ acc) []) :
    ∃ w ∈ ws, c ∈ SHA256.wordHex w := by
  induction ws with
  | nil => simp at hc
  | cons w t ih =>
    simp only [List.foldr, List.mem_append] at hc
    rcases hc with h | h
    · exact ⟨w, by simp, h⟩
    · obtain ⟨w2, hw2, hcw⟩ := ih h
      exact ⟨w2, by simp [hw2], hcw⟩

/-- C6: the Hashing Unit's fingerprint — the file consumed in 4096-byte
chunks fed into a running SHA-256 accumulator — equals the lowercase
hexadecimal SHA-256 digest of the entire content computed in one pass;
feeding the accumulator any chunk partition of the content yields the
identical fingerprint; and every digest character is a lowercase
hexadecimal character. -/
theorem c6_hash_chunked_eq_one_pass :
    (∀ content : List Nat, calculate_file_hash content = sha256hex content) ∧
    (∀ (chunks : List (List Nat)) (content : List Nat), chunks.flatten = content →
      (chunks.foldl Sha256Ctx.update sha256Start).hexdigest = sha256hex content) ∧
    (∀ (content : List Nat) (c : Char), c ∈ (sha256hex content).toList →
      ('0' ≤ c ∧ c ≤ '9') ∨ ('a' ≤ c ∧ c ≤ 'f')) := by
  refine ⟨?_, ?_, ?_⟩
  · intro content
    unfold calculate_file_hash
    rw [foldl_update_eq]
    simp [Sha256Ctx.hexdigest, sha256Start, readChunks_join]
  · intro chunks content h
    rw [foldl_update_eq]
    simp [Sha256Ctx.hexdigest, sha256Start, h]
  · intro content c hc
    have hc2 : c ∈ (SHA256.sha256words content).foldr
        (fun w acc => SHA256.wordHex w ++ acc) [] := by
      simpa [sha256hex] using hc
    obtain ⟨w, _, hcw⟩ := mem_foldr_wordHex _ _ hc2
    exact wordHex_range w c hcw

/-- Witness for C6: the content `"abc"` partitioned as `"a" ++ "bc"`. -/
theorem c6_hash_chunked_eq_one_pass_witness :
    [[97], [98, 99]].flatten = [97, 98, 99] ∧
    ([[97], [98, 99]].foldl Sha256Ctx.update sha256Start).hexdigest = sha256hex [97, 98, 99] :=
  ⟨by decide, c6_hash_chunked_eq_one_pass.2.1 [[97], [98, 99]] [97, 98, 99] (by decide)⟩

/-- C1: on a store whose engine lacked FTS5 at initialization, a search
with a non-empty free-text query raises `OperationalError` instead of
using the substring fallback, although the stored paper matches the
fallback predicate of the source's unreachable branch.  Initialization
itself succeeded (the degraded store exists). -/
theorem c1_degraded_search_raises :
    search_papers sDeg (some "deep") none none none =
      .error (.operationalError "no such table: papers_fts") ∧
    fallbackMatch "deep" pDeg = true ∧
    sDeg.ftsAvailable = false := by decide

/-- C5: a search with no free-text query and no filters returns every
stored paper. -/
theorem c5_empty_search_returns_all (s : RepoState) :
    search_papers s none none none none = .ok (s.papers.map rowToDict) := by
  simp [search_papers, pyTruthy, categoryPred, authorPred, yearPred]

/-- C7: an `add_paper` call that raises an error leaves the store — both
the primary table and the index — exactly as it was. -/
theorem c7_failed_add_leaves_store_unchanged
    (s : RepoState) (fs : FileSystem) (t a : String)
    (fp ab pd c k : Option String) (fl : Bool) (now : String)
    (s2 : RepoState) (fs2 : FileSystem) (e : RepoError)
    (h : add_paper s fs t a fp ab pd c k fl now = (s2, fs2, .error e)) :
    s2 = s := by
  simp only [add_paper, addExisting] at h
  repeat' split at h
  all_goals simp_all

/-- Witness for C7: adding with a missing file and auto-create disabled
errors and leaves the empty store unchanged. -/
theorem c7_failed_add_witness :
    (add_paper (initState true) ⟨[]⟩ "T" "A" (some "missing.pdf") none none none none false "n"
      = (initState true, ⟨[]⟩, .error (.fileNotFound "missing.pdf"))) ∧
    initState true = initState true :=
  ⟨by decide,
   c7_failed_add_leaves_store_unchanged (initState true) ⟨[]⟩ "T" "A"
     (some "missing.pdf") none none none none false "n"
     (initState true) ⟨[]⟩ (.fileNotFound "missing.pdf") (by decide)⟩

/-- C10: every mapping returned by a successful search has exactly the
nine projected keys, in order, and never contains `file_hash`. -/
theorem c10_result_keys (s : RepoState) (query category author year : Option String)
    (rs : List (List (String × SqlValue))) (d : List (String × SqlValue))
    (hok : search_papers s query category author year = .ok rs) (hd : d ∈ rs) :
    d.map Prod.fst = ["id", "title", "authors", "abstract", "publication_date",
      "category", "file_path", "upload_date", "keywords"] ∧
    ∀ v, ("file_hash", v) ∉ d := by
  have hex : ∃ l : List PaperRow, rs = l.map rowToDict := by
    unfold search_papers at hok
    by_cases h1 : pyTruthy query
    · by_cases h2 : s.ftsAvailable
      · simp [h1, h2] at hok
        exact ⟨_, hok.symm⟩
      · simp [h1, h2] at hok
    · simp [h1] at hok
      exact ⟨_, hok.symm⟩
  obtain ⟨l, rfl⟩ := hex
  obtain ⟨p, _, rfl⟩ := List.mem_map.mp hd
  constructor
  · simp [rowToDict]
  · intro v hv
    simp [rowToDict] at hv

/-- Witness for C10: the unfiltered search over the one-paper store. -/
theorem c10_result_keys_witness :
    (search_papers sJohn none none none none = .ok [rowToDict pJohn]) ∧
    ((rowToDict pJohn).map Prod.fst = ["id", "title", "authors", "abstract",
      "publication_date", "category", "file_path", "upload_date", "keywords"] ∧
     ∀ v, ("file_hash", v) ∉ rowToDict pJohn) :=
  ⟨by decide,
   c10_result_keys sJohn none none none none [rowToDict pJohn] (rowToDict pJohn)
     (by decide) (by simp)⟩

/-- On success, `insertPaper` appends exactly the new row (and its index
projection when FTS is available) and returns the allocated rowid. -/
theorem insertPaper_ok_eq (s : RepoState) (title authors : String)
    (ab pd c path hash : Option String) (now : String) (k : Option String)
    (s2 : RepoState) (pid : Nat)
    (h : insertPaper s title authors ab pd c path hash now k = .ok (s2, pid)) :
    s2 = { s with
      papers := s.papers ++
        [{ id := s.nextId, title := title, authors := authors, abstract := ab,
           publication_date := pd, category := c, file_path := path, file_hash := hash,
           upload_date := now, keywords := k }],
      fts := if s.ftsAvailable then
          s.fts ++ [{ rowid := s.nextId, title := title, authors := authors,
                      abstract := ab, keywords := k }] else s.fts,
      nextId := s.nextId + 1 } ∧ pid = s.nextId := by
  simp only [insertPaper] at h
  split at h
  · cases h
  · rw [Except.ok.injEq, Prod.mk.injEq] at h
    exact ⟨h.1.symm, h.2.symm⟩

/-- The only error `insertPaper` raises is the uniqueness violation. -/
theorem insertPaper_error_eq (s : RepoState) (title authors : String)
    (ab pd c path hash : Option String) (now : String) (k : Option String) (e : RepoError)
    (h : insertPaper s title authors ab pd c path hash now k = .error e) :
    e = .integrityError := by
  simp only [insertPaper] at h
  split at h
  · exact (Except.error.inj h).symm
  · cases h

/-- Any paper present after the has-file phase of an add was already
stored or is the freshly inserted row carrying the path and its hash. -/
theorem addExisting_papers_cases (s : RepoState) (fs : FileSystem) (p t a : String)
    (ab pd c k : Option String) (now : String) (r : PaperRow)
    (hr : r ∈ (addExisting s fs p t a ab pd c k now).1.papers) :
    r ∈ s.papers ∨ ∃ hsh, r.file_path = some p ∧ r.file_hash = some hsh := by
  simp only [addExisting] at hr
  set hv := calculate_file_hash ((lookupFile fs.files p).getD []) with hhv
  by_cases hdup : s.papers.any (fun q => q.file_hash == some hv)
  · simp [hdup] at hr
    exact .inl hr
  · simp only [hdup] at hr
    rcases hins : insertPaper s t a ab pd c (some p) (some hv) now k with e | s2pid
    · rw [hins] at hr
      simp at hr
      exact .inl hr
    · obtain ⟨s2, pid⟩ := s2pid
      rw [hins] at hr
      simp at hr
      obtain ⟨hs2, _⟩ := insertPaper_ok_eq _ _ _ _ _ _ _ _ _ _ _ _ hins
      subst hs2
      simp [List.mem_append] at hr
      rcases hr with h | h
      · exact .inl h
      · subst h
        exact .inr ⟨hv, rfl, rfl⟩

/-- Any paper present after an `add_paper` call was either already
stored, or is a new row storing both `file_path` and `file_hash` absent,
or storing both present. -/
theorem add_paper_papers_cases (s : RepoState) (fs : FileSystem) (t a : String)
    (fp ab pd c k : Option String) (fl : Bool) (now : String) (r : PaperRow)
    (hr : r ∈ (add_paper s fs t a fp ab pd c k fl now).1.papers) :
    r ∈ s.papers ∨ (r.file_path = none ∧ r.file_hash = none) ∨
    (∃ p hsh, r.file_path = some p ∧ r.file_hash = some hsh) := by
  simp only [add_paper] at hr
  by_cases h1 : pyTruthy fp
  · simp only [h1, if_true] at hr
    by_cases h2 : fsExists fs (fp.getD "")
    · simp only [h2, if_true] at hr
      rcases addExisting_papers_cases _ _ _ _ _ _ _ _ _ _ _ hr with h | ⟨hsh, hp, hh⟩
      · exact .inl h
      · exact .inr (.inr ⟨_, hsh, hp, hh⟩)
    · simp only [h2, if_false, Bool.false_eq_true] at hr
      by_cases h3 : fl
      · simp only [h3, if_true] at hr
        rcases addExisting_papers_cases _ _ _ _ _ _ _ _ _ _ _ hr with h | ⟨hsh, hp, hh⟩
        · exact .inl h
        · exact .inr (.inr ⟨_, hsh, hp, hh⟩)
      · simp only [h3, if_false, Bool.false_eq_true] at hr
        exact .inl hr
  · simp only [h1, if_false, Bool.false_eq_true] at hr
    rcases hins : insertPaper s t a ab pd c none none now k with e | s2pid
    · rw [hins] at hr
      simp at hr
      exact .inl hr
    · obtain ⟨s2, pid⟩ := s2pid
      rw [hins] at hr
      simp at hr
      obtain ⟨hs2, _⟩ := insertPaper_ok_eq _ _ _ _ _ _ _ _ _ _ _ _ hins
      subst hs2
      simp [List.mem_append] at hr
      rcases hr with h | h
      · exact .inl h
      · subst h
        exact .inr (.inl ⟨rfl, rfl⟩)

/-- C9: in every reachable store state, a paper with no `file_path` has
no `file_hash`. -/
theorem c9_no_path_no_hash (s : RepoState) (hs : Reachable s) :
    ∀ r ∈ s.papers, r.file_path = none → r.file_hash = none := by
  induction hs with
  | initial fts => simp [initState]
  | add s fs t a fp ab pd c k fl now hs ih =>
    intro r hr hp
    rcases add_paper_papers_cases s fs t a fp ab pd c k fl now r hr with h | h | h
    · exact ih r h hp
    · exact h.2
    · obtain ⟨p, hsh, hp2, _⟩ := h
      rw [hp] at hp2
      cases hp2
  | clear s fs hs ih =>
    intro r hr hp
    have hmem : r ∈ s.papers := by
      simp only [clear_test_data, List.mem_filter] at hr
      exact hr.1
    exact ih r hmem hp

/-- Witness for C9: the state reached by one pathless add contains
`pNone`, whose hash is indeed absent. -/
theorem c9_no_path_no_hash_witness :
    (pNone ∈ (add_paper (initState true) ⟨[]⟩ "T" "A" none none none none none false "n").1.papers) ∧
    pNone.file_hash = none :=
  ⟨by decide,
   c9_no_path_no_hash _
     (Reachable.add (initState true) ⟨[]⟩ "T" "A" none none none none none false "n"
       (Reachable.initial true))
     pNone (by decide) (by decide)⟩

/-- The has-file phase of an add never touches the filesystem. -/
theorem addExisting_fs_eq (s : RepoState) (fs : FileSystem) (p t a : String)
    (ab pd c k : Option String) (now : String) :
    (addExisting s fs p t a ab pd c k now).2.1 = fs := by
  simp only [addExisting]
  split
  · rfl
  · split <;> rfl

/-- The has-file phase never raises `FileNotFound`. -/
theorem addExisting_no_fnf (s : RepoState) (fs : FileSystem) (p t a : String)
    (ab pd c k : Option String) (now : String) (q : String) :
    (addExisting s fs p t a ab pd c k now).2.2 ≠ .error (.fileNotFound q) := by
  simp only [addExisting]
  set hv := calculate_file_hash ((lookupFile fs.files p).getD []) with hhv
  by_cases hdup : s.papers.any (fun r => r.file_hash == some hv)
  · simp [hdup]
  · simp only [hdup]
    rcases hins : insertPaper s t a ab pd c (some p) (some hv) now k with e | s2pid
    · have he := insertPaper_error_eq _ _ _ _ _ _ _ _ _ _ _ hins
      subst he
      simp
    · obtain ⟨s2, pid⟩ := s2pid
      simp

/-- With a falsy `file_path` argument (`None` or `""`), an add never
raises `FileNotFound`. -/
theorem add_falsy_no_fnf (s : RepoState) (fs : FileSystem) (t a : String)
    (fp ab pd c k : Option String) (fl : Bool) (now : String) (q : String)
    (hfp : pyTruthy fp = false) :
    (add_paper s fs t a fp ab pd c k fl now).2.2 ≠ .error (.fileNotFound q) := by
  simp only [add_paper, hfp, Bool.false_eq_true, if_false]
  rcases hins : insertPaper s t a ab pd c none none now k with e | s2pid
  · have he := insertPaper_error_eq _ _ _ _ _ _ _ _ _ _ _ hins
    subst he
    simp
  · obtain ⟨s2, pid⟩ := s2pid
    simp

/-- C3 fails as stated: supplying the empty-string path, with no file at
that path and auto-create disabled, does not raise `FileNotFound` —
Python truthiness routes the call to the no-file branch, which inserts
the paper with both path and hash absent. -/
theorem c3_counterexample :
    fsExists ⟨[]⟩ "" = false ∧
    (add_paper (initState true) ⟨[]⟩ "T" "A" (some "") none none none none false "n").2.2
      = .inserted 1 := by decide

/-- C3 (amended): `add_paper` raises `FileNotFound` iff a NON-EMPTY
`file_path` is supplied, no file exists at that path, and auto-create is
false; when auto-create is true and the file is missing, the fixture
generator materializes the placeholder at that path and the add proceeds
(it never raises `FileNotFound`); an add without a path never raises
`FileNotFound`. -/
theorem c3_file_not_found_iff :
    (∀ (s : RepoState) (fs : FileSystem) (t a p : String)
        (ab pd c k : Option String) (fl : Bool) (now : String),
      ((add_paper s fs t a (some p) ab pd c k fl now).2.2 = .error (.fileNotFound p)) ↔
        (p ≠ "" ∧ fsExists fs p = false ∧ fl = false)) ∧
    (∀ (s : RepoState) (fs : FileSystem) (t a p : String)
        (ab pd c k : Option String) (now : String),
      p ≠ "" → fsExists fs p = false →
      lookupFile (add_paper s fs t a (some p) ab pd c k true now).2.1.files p
          = some samplePdfBytes ∧
      (add_paper s fs t a (some p) ab pd c k true now).2.2 ≠ .error (.fileNotFound p)) ∧
    (∀ (s : RepoState) (fs : FileSystem) (t a : String)
        (ab pd c k : Option String) (fl : Bool) (now : String) (q : String),
      (add_paper s fs t a none ab pd c k fl now).2.2 ≠ .error (.fileNotFound q)) := by
  refine ⟨?_, ?_, ?_⟩
  · intro s fs t a p ab pd c k fl now
    constructor
    · intro h
      by_cases hp : p = ""
      · subst hp
        exact absurd h (add_falsy_no_fnf s fs t a (some "") ab pd c k fl now "" (by simp [pyTruthy]))
      · have htr : pyTruthy (some p) = true := by simp [pyTruthy, hp]
        simp only [add_paper, htr, if_true, Option.getD_some] at h
        by_cases hex : fsExists fs p
        · simp only [hex, if_true] at h
          exact absurd h (addExisting_no_fnf s fs p t a ab pd c k now p)
        · simp only [hex, Bool.false_eq_true, if_false] at h
          by_cases hfl : fl
          · simp only [hfl, if_true] at h
            exact absurd h (addExisting_no_fnf s (createSamplePdf fs p) p t a ab pd c k now p)
          · exact ⟨hp, by simp [hex], by simp [hfl]⟩
    · rintro ⟨hp, hex, hfl⟩
      have htr : pyTruthy (some p) = true := by simp [pyTruthy, hp]
      subst hfl
      simp [add_paper, htr, hex]
  · intro s fs t a p ab pd c k now hp hex
    have htr : pyTruthy (some p) = true := by simp [pyTruthy, hp]
    constructor
    · simp only [add_paper, htr, if_true, Option.getD_some, hex, Bool.false_eq_true, if_false]
      rw [addExisting_fs_eq]
      simp [createSamplePdf, lookupFile]
    · simp only [add_paper, htr, if_true, Option.getD_some, hex, Bool.false_eq_true, if_false,
        if_true]
      exact addExisting_no_fnf s (createSamplePdf fs p) p t a ab pd c k now p
  · intro s fs t a ab pd c k fl now q
    exact add_falsy_no_fnf s fs t a none ab pd c k fl now q rfl

/-- Witness for C3 (amended): with path "sample.pdf" missing and
auto-create on, the placeholder appears and no `FileNotFound` is raised;
with auto-create off the error is raised. -/
theorem c3_file_not_found_iff_witness :
    ("sample.pdf" ≠ "" ∧ fsExists ⟨[]⟩ "sample.pdf" = false) ∧
    (lookupFile (add_paper (initState true) ⟨[]⟩ "T" "A" (some "sample.pdf")
        none none none none true "n").2.1.files "sample.pdf" = some samplePdfBytes ∧
     (add_paper (initState true) ⟨[]⟩ "T" "A" (some "sample.pdf")
        none none none none true "n").2.2 ≠ .error (.fileNotFound "sample.pdf")) ∧
    ((add_paper (initState true) ⟨[]⟩ "T" "A" (some "sample.pdf")
        none none none none false "n").2.2 = .error (.fileNotFound "sample.pdf")) :=
  ⟨⟨by decide, by decide⟩,
   c3_file_not_found_iff.2.1 (initState true) ⟨[]⟩ "T" "A" "sample.pdf"
     none none none none "n" (by decide) (by decide),
   (c3_file_not_found_iff.1 (initState true) ⟨[]⟩ "T" "A" "sample.pdf"
     none none none none false "n").mpr ⟨by decide, by decide, rfl⟩⟩

/-- Disjunction distributes over `List.any`. -/
theorem any_or_eq {α : Type} (l : List α) (f g : α → Bool) :
    (l.any fun x => f x || g x) = (l.any f || l.any g) := by
  induction l with
  | nil => rfl
  | cons x t ih =>
    simp only [List.any_cons, ih]
    cases f x <;> cases g x <;> cases t.any f <;> cases t.any g <;> rfl

/-- A predicate that holds nowhere filters to the empty list. -/
theorem filter_nil_of_any_false {α : Type} (l : List α) (p : α → Bool)
    (h : l.any p = false) : l.filter p = [] := by
  induction l with
  | nil => rfl
  | cons x t ih =>
    simp only [List.any_cons, Bool.or_eq_false_iff] at h
    simp [List.filter_cons, h.1, ih h.2]

/-- When the file exists and a stored paper already carries the content's
hash, `add_paper` returns the duplicate marker and changes nothing. -/
theorem add_paper_duplicate (s : RepoState) (fs : FileSystem) (p t a : String)
    (ab pd c k : Option String) (fl : Bool) (now : String) (bytes : List Nat)
    (hp : p ≠ "") (hb : lookupFile fs.files p = some bytes)
    (hdup : s.papers.any (fun r => r.file_hash == some (calculate_file_hash bytes)) = true) :
    add_paper s fs t a (some p) ab pd c k fl now = (s, fs, .duplicate) := by
  have htr : pyTruthy (some p) = true := by simp [pyTruthy, hp]
  have hex : fsExists fs p = true := by simp [fsExists, hb]
  simp only [add_paper, htr, if_true, Option.getD_some, hex, addExisting, hb, hdup]

/-- When the file exists, no stored paper carries the content's hash, and
no stored paper occupies the path, `add_paper` inserts the new row. -/
theorem add_paper_fresh_insert (s : RepoState) (fs : FileSystem) (p t a : String)
    (ab pd c k : Option String) (fl : Bool) (now : String) (bytes : List Nat)
    (hp : p ≠ "") (hb : lookupFile fs.files p = some bytes)
    (hnohash : s.papers.any (fun r => r.file_hash == some (calculate_file_hash bytes)) = false)
    (hnopath : s.papers.any (fun r => r.file_path == some p) = false) :
    add_paper s fs t a (some p) ab pd c k fl now =
      ({ s with
          papers := s.papers ++
            [{ id := s.nextId, title := t, authors := a, abstract := ab,
               publication_date := pd, category := c, file_path := some p,
               file_hash := some (calculate_file_hash bytes), upload_date := now,
               keywords := k }],
          fts := if s.ftsAvailable then
              s.fts ++ [{ rowid := s.nextId, title := t, authors := a,
                          abstract := ab, keywords := k }] else s.fts,
          nextId := s.nextId + 1 }, fs, .inserted s.nextId) := by
  have htr : pyTruthy (some p) = true := by simp [pyTruthy, hp]
  have hex : fsExists fs p = true := by simp [fsExists, hb]
  have hviol : violatesUnique s (some p) (some (calculate_file_hash bytes)) = false := by
    simp only [violatesUnique, Option.isSome_some, Bool.true_and]
    rw [any_or_eq s.papers (fun r => r.file_path == some p)
      (fun r => r.file_hash == some (calculate_file_hash bytes))]
    rw [hnohash, hnopath]
    rfl
  simp only [add_paper, htr, if_true, Option.getD_some, hex, addExisting, hb, hnohash,
    Bool.false_eq_true, if_false, insertPaper, hviol]

/-- When the file exists, no stored paper carries the content's hash, but
a stored paper already occupies the path, `add_paper` raises the
uniqueness violation — it is NOT reported as a duplicate. -/
theorem add_paper_path_conflict (s : RepoState) (fs : FileSystem) (p t a : String)
    (ab pd c k : Option String) (fl : Bool) (now : String) (bytes : List Nat)
    (hp : p ≠ "") (hb : lookupFile fs.files p = some bytes)
    (hnohash : s.papers.any (fun r => r.file_hash == some (calculate_file_hash bytes)) = false)
    (hpath : s.papers.any (fun r => r.file_path == some p) = true) :
    add_paper s fs t a (some p) ab pd c k fl now = (s, fs, .error .integrityError) := by
  have htr : pyTruthy (some p) = true := by simp [pyTruthy, hp]
  have hex : fsExists fs p = true := by simp [fsExists, hb]
  have hviol : violatesUnique s (some p) (some (calculate_file_hash bytes)) = true := by
    simp only [violatesUnique, Option.isSome_some, Bool.true_and]
    rw [any_or_eq s.papers (fun r => r.file_path == some p)
      (fun r => r.file_hash == some (calculate_file_hash bytes))]
    rw [hnohash, hpath]
    rfl
  simp only [add_paper, htr, if_true, Option.getD_some, hex, addExisting, hb, hnohash,
    Bool.false_eq_true, if_false, insertPaper, hviol]

/-- When the file exists and no stored paper carries the content's hash,
the outcome is never the duplicate marker. -/
theorem add_paper_nodup (s : RepoState) (fs : FileSystem) (p t a : String)
    (ab pd c k : Option String) (fl : Bool) (now : String) (bytes : List Nat)
    (hp : p ≠ "") (hb : lookupFile fs.files p = some bytes)
    (hnohash : s.papers.any (fun r => r.file_hash == some (calculate_file_hash bytes)) = false) :
    (add_paper s fs t a (some p) ab pd c k fl now).2.2 ≠ .duplicate := by
  have htr : pyTruthy (some p) = true := by simp [pyTruthy, hp]
  have hex : fsExists fs p = true := by simp [fsExists, hb]
  simp only [add_paper, htr, if_true, Option.getD_some, hex, addExisting, hb, hnohash,
    Bool.false_eq_true, if_false]
  rcases hins : insertPaper s t a ab pd c (some p)
      (some (calculate_file_hash bytes)) now k with e | s2pid
  · simp
  · obtain ⟨s2, pid⟩ := s2pid
    simp

/-- C2: with the file present, `add_paper` returns the duplicate marker
and inserts nothing exactly when some stored paper already carries the
content's fingerprint; two adds of byte-identical content under distinct
paths leave exactly one stored paper, the second returning the marker;
re-using a stored path with changed bytes is not reported as a duplicate
(it raises the path-uniqueness violation). -/
theorem c2_content_dedup :
    (∀ (s : RepoState) (fs : FileSystem) (p t a : String)
        (ab pd c k : Option String) (fl : Bool) (now : String) (bytes : List Nat),
      p ≠ "" → lookupFile fs.files p = some bytes →
      (((add_paper s fs t a (some p) ab pd c k fl now).1 = s ∧
        (add_paper s fs t a (some p) ab pd c k fl now).2.2 = .duplicate) ↔
       s.papers.any (fun r => r.file_hash == some (calculate_file_hash bytes)) = true)) ∧
    (∀ (s : RepoState) (fs : FileSystem) (p1 p2 t1 a1 t2 a2 : String)
        (ab1 pd1 c1 k1 ab2 pd2 c2 k2 : Option String) (now1 now2 : String) (bytes : List Nat),
      p1 ≠ "" → p2 ≠ "" →
      lookupFile fs.files p1 = some bytes → lookupFile fs.files p2 = some bytes →
      s.papers.any (fun r => r.file_hash == some (calculate_file_hash bytes)) = false →
      s.papers.any (fun r => r.file_path == some p1) = false →
      ((add_paper s fs t1 a1 (some p1) ab1 pd1 c1 k1 false now1).2.2 = .inserted s.nextId ∧
       (add_paper (add_paper s fs t1 a1 (some p1) ab1 pd1 c1 k1 false now1).1
          (add_paper s fs t1 a1 (some p1) ab1 pd1 c1 k1 false now1).2.1 t2 a2 (some p2)
          ab2 pd2 c2 k2 false now2).2.2 = .duplicate ∧
       (add_paper (add_paper s fs t1 a1 (some p1) ab1 pd1 c1 k1 false now1).1
          (add_paper s fs t1 a1 (some p1) ab1 pd1 c1 k1 false now1).2.1 t2 a2 (some p2)
          ab2 pd2 c2 k2 false now2).1 =
         (add_paper s fs t1 a1 (some p1) ab1 pd1 c1 k1 false now1).1 ∧
       ((add_paper (add_paper s fs t1 a1 (some p1) ab1 pd1 c1 k1 false now1).1
          (add_paper s fs t1 a1 (some p1) ab1 pd1 c1 k1 false now1).2.1 t2 a2 (some p2)
          ab2 pd2 c2 k2 false now2).1.papers.filter
            (fun r => r.file_hash == some (calculate_file_hash bytes))).length = 1)) ∧
    (∀ (s : RepoState) (fs : FileSystem) (p t a : String)
        (ab pd c k : Option String) (fl : Bool) (now : String) (bytes : List Nat),
      p ≠ "" → lookupFile fs.files p = some bytes →
      s.papers.any (fun r => r.file_hash == some (calculate_file_hash bytes)) = false →
      s.papers.any (fun r => r.file_path == some p) = true →
      (add_paper s fs t a (some p) ab pd c k fl now).2.2 = .error .integrityError) := by
  refine ⟨?_, ?_, ?_⟩
  · intro s fs p t a ab pd c k fl now bytes hp hb
    constructor
    · intro h
      by_cases hdup : s.papers.any (fun r => r.file_hash == some (calculate_file_hash bytes)) = true
      · exact hdup
      · exact absurd h.2
          (add_paper_nodup s fs p t a ab pd c k fl now bytes hp hb (by simpa using hdup))
    · intro hdup
      rw [add_paper_duplicate s fs p t a ab pd c k fl now bytes hp hb hdup]
      exact ⟨rfl, rfl⟩
  · intro s fs p1 p2 t1 a1 t2 a2 ab1 pd1 c1 k1 ab2 pd2 c2 k2 now1 now2 bytes
      hp1 hp2 hb1 hb2 hnohash hnopath
    have hr1 := add_paper_fresh_insert s fs p1 t1 a1 ab1 pd1 c1 k1 false now1 bytes
      hp1 hb1 hnohash hnopath
    simp only [hr1]
    have hdup2 : ({ s with
        papers := s.papers ++
          [{ id := s.nextId, title := t1, authors := a1, abstract := ab1,
             publication_date := pd1, category := c1, file_path := some p1,
             file_hash := some (calculate_file_hash bytes), upload_date := now1,
             keywords := k1 }],
        fts := if s.ftsAvailable then
            s.fts ++ [{ rowid := s.nextId, title := t1, authors := a1,
                        abstract := ab1, keywords := k1 }] else s.fts,
        nextId := s.nextId + 1 } : RepoState).papers.any
          (fun r => r.file_hash == some (calculate_file_hash bytes)) = true := by
      simp [List.any_append, hnohash]
    have hr2 := add_paper_duplicate _ fs p2 t2 a2 ab2 pd2 c2 k2 false now2 bytes hp2 hb2 hdup2
    simp only [hr2]
    refine ⟨trivial, trivial, trivial, ?_⟩
    simp only [List.filter_append, filter_nil_of_any_false _ _ hnohash, List.filter_cons]
    simp
  · intro s fs p t a ab pd c k fl now bytes hp hb hnohash hpath
    rw [add_paper_path_conflict s fs p t a ab pd c k fl now bytes hp hb hnohash hpath]

/-- Witness for C2: the dedup-idempotence scenario on an empty store and
the path-conflict scenario on `sPath`. -/
theorem c2_content_dedup_witness :
    ((add_paper (initState true) fsTwin "T1" "A1" (some "a.pdf")
        none none none none false "n1").2.2 = .inserted 1) ∧
    ((add_paper
        (add_paper (initState true) fsTwin "T1" "A1" (some "a.pdf")
          none none none none false "n1").1
        (add_paper (initState true) fsTwin "T1" "A1" (some "a.pdf")
          none none none none false "n1").2.1
        "T2" "A2" (some "b.pdf") none none none none false "n2").2.2 = .duplicate) ∧
    ((add_paper sPath fsChanged "T" "A" (some "a.pdf")
        none none none none false "n").2.2 = .error .integrityError) := by
  have hB := c2_content_dedup.2.1 (initState true) fsTwin "a.pdf" "b.pdf" "T1" "A1" "T2" "A2"
    none none none none none none none none "n1" "n2" [65, 66, 67]
    (by decide) (by decide) (by decide) (by decide) (by decide) (by decide)
  have hC := c2_content_dedup.2.2 sPath fsChanged "a.pdf" "T" "A" none none none none false "n"
    [68, 69, 70] (by decide) (by decide) (by decide) (by decide)
  exact ⟨hB.1, hB.2.1, hC⟩

/-- A bare `%` matches every string. -/
theorem likeMatch_pct_nil (ds : List Char) : likeMatch ['%'] ds = true := by
  induction ds with
  | nil => rfl
  | cons d t ih =>
    simp only [likeMatch, if_pos rfl, List.tails]
    simp only [likeMatch] at ih
    simp [List.any_cons, ih]

/-- A wildcard-free pattern followed by `%` matches exactly the strings
extending the pattern, up to ASCII case. -/
theorem likeMatch_prefix_pct (cs : List Char) (hpct : '%' ∉ cs) (hund : '_' ∉ cs) :
    ∀ ds : List Char,
      likeMatch (cs ++ ['%']) ds = (cs.map asciiLower).isPrefixOf (ds.map asciiLower) := by
  induction cs with
  | nil =>
    intro ds
    simp [likeMatch_pct_nil]
  | cons c cs ih =>
    have hc1 : c ≠ '%' := fun h => hpct (by simp [h])
    have hc2 : c ≠ '_' := fun h => hund (by simp [h])
    have hpct2 : '%' ∉ cs := fun h => hpct (by simp [h])
    have hund2 : '_' ∉ cs := fun h => hund (by simp [h])
    intro ds
    cases ds with
    | nil => simp [likeMatch, hc1, List.isPrefixOf]
    | cons d ds2 =>
      simp only [List.cons_append, likeMatch, if_neg hc1, if_neg hc2, List.map_cons,
        List.isPrefixOf, List.append_eq]
      rw [ih hpct2 hund2 ds2]

/-- Filtering away a key makes it unfindable. -/
theorem lookupFile_filter_self (l : List (String × List Nat)) (k : String) :
    lookupFile (l.filter (fun kv => !(kv.1 == k))) k = none := by
  induction l with
  | nil => rfl
  | cons x t ih =>
    obtain ⟨xk, xv⟩ := x
    by_cases hx : xk = k
    · simp [List.filter_cons, hx, ih]
    · simp [List.filter_cons, hx, lookupFile, ih]

/-- Filtering away one key leaves every other lookup unchanged. -/
theorem lookupFile_filter_other (l : List (String × List Nat)) (k q : String) (hq : q ≠ k) :
    lookupFile (l.filter (fun kv => !(kv.1 == k))) q = lookupFile l q := by
  induction l with
  | nil => rfl
  | cons x t ih =>
    obtain ⟨xk, xv⟩ := x
    by_cases hx : xk = k
    · subst hx
      have hne : ¬(xk = q) := fun h => hq h.symm
      simp [List.filter_cons, lookupFile, hne, ih]
    · by_cases hxq : xk = q
      · simp [List.filter_cons, hx, lookupFile, hxq, hq]
      · simp [List.filter_cons, hx, lookupFile, hxq, ih]

/-- C8 fails as stated: `clear_test_data` deletes a paper titled in upper
case, although that title does not start with the prefix
"Deep Learning for" (SQL `LIKE` compares case-insensitively). -/
theorem c8_counterexample :
    (clear_test_data sUpper ⟨[]⟩).1.papers = [] ∧
    ("Deep Learning for".toList.isPrefixOf "DEEP LEARNING FOR X".toList) = false := by decide

/-- C8 (amended): the clearing operation (whose title prefix is fixed to
"Deep Learning for" in the source) deletes exactly the stored papers
whose title starts with that prefix UP TO ASCII CASE; every other paper
remains stored unchanged; the fixture file `sample_paper.pdf` is removed
if present and all other files are untouched. -/
theorem c8_clear_matching_amended :
    ∀ (s : RepoState) (fs : FileSystem),
      (∀ r : PaperRow, r ∈ (clear_test_data s fs).1.papers ↔
        (r ∈ s.papers ∧
         ("Deep Learning for".toList.map asciiLower).isPrefixOf
           (r.title.toList.map asciiLower) = false)) ∧
      lookupFile (clear_test_data s fs).2.files "sample_paper.pdf" = none ∧
      (∀ q, q ≠ "sample_paper.pdf" →
        lookupFile (clear_test_data s fs).2.files q = lookupFile fs.files q) := by
  intro s fs
  have hpat : "Deep Learning for%".toList = "Deep Learning for".toList ++ ['%'] := by decide
  refine ⟨?_, ?_, ?_⟩
  · intro r
    simp only [clear_test_data, List.mem_filter]
    rw [hpat, likeMatch_prefix_pct "Deep Learning for".toList (by decide) (by decide) r.title.toList]
    constructor
    · rintro ⟨h1, h2⟩
      exact ⟨h1, by simpa using h2⟩
    · rintro ⟨h1, h2⟩
      exact ⟨h1, by simpa using h2⟩
  · exact lookupFile_filter_self fs.files "sample_paper.pdf"
  · intro q hq
    exact lookupFile_filter_other fs.files "sample_paper.pdf" q hq

/-- Witness for C8 (amended): clearing `sJohn` keeps the non-matching
paper, removes the fixture file, and leaves the other file alone. -/
theorem c8_clear_matching_amended_witness :
    (pJohn ∈ (clear_test_data sJohn fsSample).1.papers) ∧
    lookupFile (clear_test_data sJohn fsSample).2.files "sample_paper.pdf" = none ∧
    lookupFile (clear_test_data sJohn fsSample).2.files "other.txt"
      = lookupFile fsSample.files "other.txt" := by
  have h := c8_clear_matching_amended sJohn fsSample
  exact ⟨(h.1 pJohn).mpr ⟨by decide, by decide⟩, h.2.1, h.2.2 "other.txt" (by decide)⟩

/-- The category filter passes exactly when a supplied non-empty category
equals the paper's category. -/
theorem categoryPred_eq_true_iff (category : Option String) (p : PaperRow) :
    categoryPred category p = true ↔
      (∀ c, category = some c → c ≠ "" → p.category = some c) := by
  cases category with
  | none => simp [categoryPred]
  | some c =>
    by_cases hc : c = ""
    · subst hc
      simp [categoryPred]
    · simp [categoryPred, hc]

/-- The author filter passes exactly when a supplied non-empty author
`LIKE`-matches inside the paper's authors. -/
theorem authorPred_eq_true_iff (author : Option String) (p : PaperRow) :
    authorPred author p = true ↔
      (∀ a, author = some a → a ≠ "" →
        likeMatch ('%' :: (a.toList ++ ['%'])) p.authors.toList = true) := by
  cases author with
  | none => simp [authorPred]
  | some a =>
    by_cases ha : a = ""
    · subst ha
      simp [authorPred]
    · simp [authorPred, ha]

/-- The year filter passes exactly when a supplied non-empty year equals
the extracted publication year. -/
theorem yearPred_eq_true_iff (year : Option String) (p : PaperRow) :
    yearPred year p = true ↔
      (∀ y, year = some y → y ≠ "" → strftimeY p.publication_date = some y) := by
  cases year with
  | none => simp [yearPred]
  | some y =>
    by_cases hy : y = ""
    · subst hy
      simp [yearPred]
    · simp [yearPred, hy]

/-- C4 fails as stated: (a) in degraded mode a free-text search errors
although a paper satisfies the fallback text predicate; (b) the author
filter matches case-insensitively, returning a paper whose `authors`
does not contain the supplied string as a substring; (c) an empty-string
category filter is dropped, returning papers of other categories. -/
theorem c4_counterexample :
    (search_papers sDeg (some "deep") none none none =
        .error (.operationalError "no such table: papers_fts") ∧
     fallbackMatch "deep" pDeg = true) ∧
    (search_papers sJohn none none (some "SMITH") none = .ok [rowToDict pJohn] ∧
     containsSubstr "SMITH".toList "John Smith".toList = false) ∧
    (search_papers sJohn none (some "") none none = .ok [rowToDict pJohn] ∧
     pJohn.category ≠ some "") := by
  refine ⟨⟨by decide, by decide⟩, ⟨by decide, by decide⟩, ⟨by decide, by decide⟩⟩

/-- C4 (amended): when the full-text index is available (or no free-text
query is given) and results are returned, they are exactly the stored
papers satisfying the conjunction of: the index match (for a supplied
non-empty query), exact category equality, the case-insensitive
`LIKE`-wrapped author match, and equality of the extracted publication
year — each filter applying only when supplied non-empty. -/
theorem c4_filter_composition :
    ∀ (s : RepoState) (query category author year : Option String)
      (rs : List (List (String × SqlValue))),
    (s.ftsAvailable = true ∨ pyTruthy query = false) →
    search_papers s query category author year = .ok rs →
    ∀ d, d ∈ rs ↔ ∃ p, p ∈ s.papers ∧ d = rowToDict p ∧
      (∀ q, query = some q → q ≠ "" →
        s.fts.any (fun f => f.rowid == p.id && ftsMatch q f) = true) ∧
      (∀ c, category = some c → c ≠ "" → p.category = some c) ∧
      (∀ a, author = some a → a ≠ "" →
        likeMatch ('%' :: (a.toList ++ ['%'])) p.authors.toList = true) ∧
      (∀ y, year = some y → y ≠ "" → strftimeY p.publication_date = some y) := by
  intro s query category author year rs hor hok
  by_cases htr : pyTruthy query = true
  · have hfts : s.ftsAvailable = true := by
      rcases hor with h | h
      · exact h
      · rw [htr] at h
        cases h
    obtain ⟨q0, rfl⟩ : ∃ q0, query = some q0 := by
      cases query with
      | none => simp [pyTruthy] at htr
      | some q0 => exact ⟨q0, rfl⟩
    have hq0ne : q0 ≠ "" := by
      simpa [pyTruthy] using htr
    simp only [search_papers, htr, if_true, hfts, Option.getD_some,
      Except.ok.injEq] at hok
    intro d
    rw [← hok]
    simp only [List.mem_map, List.mem_filter, Bool.and_eq_true]
    constructor
    · rintro ⟨p, ⟨hp, ⟨⟨⟨hq, hcat⟩, hauth⟩, hyr⟩⟩, rfl⟩
      refine ⟨p, hp, rfl, ?_, (categoryPred_eq_true_iff _ _).mp hcat,
        (authorPred_eq_true_iff _ _).mp hauth, (yearPred_eq_true_iff _ _).mp hyr⟩
      intro q hq2 hne
      cases hq2
      exact hq
    · rintro ⟨p, hp, rfl, hq, hcat, hauth, hyr⟩
      exact ⟨p, ⟨hp, ⟨⟨⟨hq q0 rfl hq0ne, (categoryPred_eq_true_iff _ _).mpr hcat⟩,
        (authorPred_eq_true_iff _ _).mpr hauth⟩, (yearPred_eq_true_iff _ _).mpr hyr⟩⟩, rfl⟩
  · have hfalse : pyTruthy query = false := by simpa using htr
    have hqtriv : ∀ p : PaperRow, ∀ q, query = some q → q ≠ "" →
        s.fts.any (fun f => f.rowid == p.id && ftsMatch q f) = true := by
      intro p q hq hne
      subst hq
      simp [pyTruthy] at hfalse
      exact absurd hfalse hne
    simp only [search_papers, hfalse, Bool.false_eq_true, if_false,
      Except.ok.injEq] at hok
    intro d
    rw [← hok]
    simp only [List.mem_map, List.mem_filter, Bool.and_eq_true]
    constructor
    · rintro ⟨p, ⟨hp, ⟨⟨hcat, hauth⟩, hyr⟩⟩, rfl⟩
      exact ⟨p, hp, rfl, hqtriv p, (categoryPred_eq_true_iff _ _).mp hcat,
        (authorPred_eq_true_iff _ _).mp hauth, (yearPred_eq_true_iff _ _).mp hyr⟩
    · rintro ⟨p, hp, rfl, hq, hcat, hauth, hyr⟩
      exact ⟨p, ⟨hp, ⟨⟨(categoryPred_eq_true_iff _ _).mpr hcat,
        (authorPred_eq_true_iff _ _).mpr hauth⟩, (yearPred_eq_true_iff _ _).mpr hyr⟩⟩, rfl⟩

/-- Witness for C4 (amended): the three-filter search of the spec's
scenario on the one-paper FTS store. -/
theorem c4_filter_composition_witness :
    search_papers sJohn (some "graph") (some "ML") none (some "2023") = .ok [rowToDict pJohn] ∧
    rowToDict pJohn ∈ [rowToDict pJohn] :=
  ⟨by decide,
   (c4_filter_composition sJohn (some "graph") (some "ML") none (some "2023")
      [rowToDict pJohn] (Or.inl rfl) (by decide) (rowToDict pJohn)).mpr
     ⟨pJohn, by decide, rfl,
      (by intro q hq hne; cases hq; decide),
      (by intro c hc hne; cases hc; decide),
      (by intro a ha hne; cases ha),
      (by intro y hy hne; cases hy; decide)⟩⟩
